import Mathlib

/-!
Shallow embedding of the mca-analyzer sources (src/palette.rs, src/chunk_section.rs,
src/chunk_loader.rs, src/diamond_vein_analyzer.rs, src/main.rs) and proofs about the
frozen claims C1 to C10.

Modelling conventions:
* machine integers are `Int` / `Nat` with explicit wrap-around where a Rust `as` cast
  or arithmetic can wrap (`wrap_i32`, `wrap_i8`, `wrap_i16`, `u64_of_int`, `% 256`);
* Rust's truncating integer division `/` is `Int.tdiv`;
* a `HashSet` is a duplicate-free `List` (every source insertion is guarded by a
  membership test, or performed with `List.insert` which is a no-op on duplicates);
* a `HashMap` used as a counter is an association `List` (`bump_count` models the
  source's `entry(k).or_insert(0) += 1`);
* a Rust panic (`assert!`, `expect`) is an outer `Option` layer: `none` means the
  operation panicked, `some r` means it returned `r`;
* the recursive `explore_vein` is embedded with a fuel argument; the source recursion
  nests at most `MAX_VEIN_SIZE + 2` calls deep (every nested recursive call has first
  inserted a voxel into the vein, and the size test aborts any call once the vein
  holds `MAX_VEIN_SIZE` voxels), so any fuel of at least 64 computes the source's
  result exactly and fuel exhaustion is unreachable.
-/

/-- Position triple (x, y, z); x and z model `i64`, y models `i32`. -/
abbrev Pos : Type := Int × Int × Int

/-- Wrap-around of an integer into the range of `i32`, modelling Rust `as i32`. -/
def wrap_i32 (v : Int) : Int := (v + 2 ^ 31) % 2 ^ 32 - 2 ^ 31

/-- Wrap-around of an integer into the range of `i8`, modelling Rust `as i8`. -/
def wrap_i8 (v : Int) : Int := (v + 2 ^ 7) % 2 ^ 8 - 2 ^ 7

/-- Wrap-around of an integer into the range of `i16`, modelling Rust `as i16`. -/
def wrap_i16 (v : Int) : Int := (v + 2 ^ 15) % 2 ^ 16 - 2 ^ 15

/-- Reinterpretation of a signed 64-bit value as unsigned, modelling both Rust
`as usize` (on a 64-bit target) and `i64::to_le_bytes` read back as a `u64`. -/
def u64_of_int (v : Int) : Nat := (v % 2 ^ 64).toNat

/-- Palette of blockstate names (src/palette.rs): `indices` models the `HashMap`
field (later insertions shadow earlier ones), `elements` the `Vec` field. -/
structure Palette where
  indices : List (String × Nat)
  elements : List String

/-- HashMap::insert on the association-list model: the new binding replaces any
previous binding of the same key. -/
def map_insert (m : List (String × Nat)) (k : String) (v : Nat) : List (String × Nat) :=
  (k, v) :: m.filter (fun e => e.1 ≠ k)

/-- Palette::from_nbt (src/palette.rs lines 20-39). The input list holds the `Name`
string of each palette entry in declaration order (`parse_palette_entry` extracts it
from the nbt compound). Note the branch for a first entry that is not air inserts
the air key into `indices` but pushes `blockstate` (not air) onto `elements`. -/
def Palette.from_nbt (nbt : List String) : Palette :=
  nbt.enum.foldl
    (fun pal ie =>
      let pal1 :=
        if ie.1 = 0 ∧ ie.2 ≠ "minecraft:air" then
          { indices := map_insert pal.indices ("minecraft:air") 0
            elements := pal.elements ++ [ie.2] }
        else pal
      { indices := map_insert pal1.indices ie.2 pal1.elements.length
        elements := pal1.elements ++ [ie.2] })
    { indices := [], elements := [] }

/-- Palette::get_state (src/palette.rs lines 60-62). -/
def Palette.get_state (pal : Palette) (id : Nat) : Option String :=
  pal.elements.get? id

/-- Bit width per palette element (src/palette.rs lines 42-45 and the identical
inline computation in src/main.rs lines 31-32): `max(4, log2(len).ceil())`. The
source computes the ceiling of the base-2 logarithm through `f64`; for every length
representable as an `i32` (the source converts the length with `try_into().unwrap()`)
the `f64` computation is exact, and it equals `Nat.clog 2` (also on length 0, where
the float pipeline yields `max(4, 0)`). -/
def get_elem_bit_size (palette_length : Nat) : Nat :=
  max 4 (Nat.clog 2 palette_length)

/-- Iterations of the `BitReader` loop of parse_blockstate_val: at bit position
`pos` inside a 64-bit word, while at least `width` bits remain, emit the `width`
bits starting at `pos` (little-endian bit order: least significant first) and
advance. The `fuel` argument only bounds the iteration count for Lean; each
iteration consumes `width ≥ 1` bits of the 64 available, so fuel 64 is never
exhausted before the remaining-bits test stops the loop. (For `width = 0` the
source loop would not terminate; every call site passes `width ≥ 4`.) -/
def read_loop (width bits : Nat) : Nat → Nat → List Nat :=
  fun pos fuel =>
    match fuel with
    | 0 => []
    | fuel' + 1 =>
      if 0 < width ∧ pos + width ≤ 64 then
        bits / 2 ^ pos % 2 ^ width :: read_loop width bits (pos + width) fuel'
      else []

/-- parse_blockstate_val (src/chunk_section.rs lines 91-103): split one packed
64-bit word into `width`-bit values starting at the least significant bit. -/
def parse_blockstate_val (width : Nat) (val : Int) : List Nat :=
  read_loop width (u64_of_int val) 0 64

/-- get_block_ids_in_chunk (src/chunk_section.rs lines 78-89): concatenate the
decoded values of every packed word. -/
def get_block_ids_in_chunk (block_state_array : List Int) (palette : Palette) : List Nat :=
  block_state_array.flatMap (parse_blockstate_val (get_elem_bit_size palette.elements.length))

/-- get_blocks_in_chunk (src/chunk_section.rs lines 62-76): write the decoded ids
into a zero-initialised 4096-entry array, stopping after index 4095. -/
def get_blocks_in_chunk (block_state_array : List Int) (palette : Palette) : List Nat :=
  let ids := get_block_ids_in_chunk block_state_array palette
  ids.take 4096 ++ List.replicate (4096 - ids.length) 0

/-- ChunkSection (src/chunk_section.rs lines 25-29). `blocks` models the fixed
4096-entry `BlocksArray` as a total function on indices. -/
structure ChunkSection where
  blocks : Nat → Nat
  pos : Int × Int × Int
  palette : Palette

/-- View of the nbt compound read by ChunkSection::from_nbt: an optional `Palette`
entry list, an optional `BlockStates` packed word list, an optional `Y` byte. -/
structure SectionNbt where
  palette : Option (List String)
  block_states : Option (List Int)
  y : Option Int

/-- ChunkSection::from_nbt (src/chunk_section.rs lines 32-50): a missing `Palette`
tag is an empty palette, a missing `BlockStates` tag means no section (`None`), a
missing `Y` tag means no section. -/
def ChunkSection.from_nbt (nbt : SectionNbt) (x z : Int) : Option ChunkSection :=
  let palette := Palette.from_nbt (nbt.palette.getD [])
  match nbt.block_states with
  | none => none
  | some block_state_array =>
    match nbt.y with
    | none => none
    | some y =>
      some { blocks := fun i => (get_blocks_in_chunk block_state_array palette).getD i 0
             pos := (x, y, z)
             palette := palette }

/-- ChunkSection::get_block_at (src/chunk_section.rs lines 52-59). The outer
`Option` models the three `assert!` calls: `none` is an assertion panic; the inner
`Option` is the function's return value (`None` when the id is not in the palette). -/
def ChunkSection.get_block_at (s : ChunkSection) (x y z : Nat) : Option (Option String) :=
  if x < 16 ∧ y < 16 ∧ z < 16 then
    some (s.palette.get_state (s.blocks (y * 256 + z * 16 + x)))
  else none

/-- get_coords_from_array_pos (src/chunk_section.rs lines 105-111), returning
(x, y, z). -/
def get_coords_from_array_pos (index : Nat) : Nat × Nat × Nat :=
  (index % 16, index / 256, index / 16 % 16)

/-- ChunkSectionBlock (src/chunk_section.rs lines 113-117). -/
structure ChunkSectionBlock where
  chunk_pos : Nat × Nat × Nat
  global_pos : Int × Int × Int
  blockstate : String

/-- Traversal of a list under a fallible (panicking) element computation: `none`
as soon as one element's computation panics, otherwise the list of results. -/
def traverse_opt {α β : Type} (f : α → Option β) : List α → Option (List β)
  | [] => some []
  | a :: l =>
    match f a with
    | none => none
    | some b =>
      match traverse_opt f l with
      | none => none
      | some bs => some (b :: bs)

/-- IntoIterator for ChunkSection (src/chunk_section.rs lines 119-157): the
materialised list of all 4096 blocks. The outer `Option` models the
`expect("Blockstate is not in palette")` panic: `none` means some id of the
section has no palette entry and the iteration panics. -/
def ChunkSection.into_iter (s : ChunkSection) : Option (List ChunkSectionBlock) :=
  traverse_opt (fun index =>
    match s.palette.get_state (s.blocks index) with
    | none => none
    | some bs =>
      let cp := get_coords_from_array_pos index
      some { chunk_pos := cp
             global_pos := (s.pos.1 * 16 + (cp.1 : Int), s.pos.2.1 * 16 + (cp.2.1 : Int),
                            s.pos.2.2 * 16 + (cp.2.2 : Int))
             blockstate := bs })
    (List.range 4096)

/-- Modelled from the spec: the Chunk type itself is not among the given sources
(src/chunk.rs holds an older ChunkSection). Per the spec, a Chunk "owns a mapping
from section index to ChunkSection; missing indices mean no voxels loaded there",
so it is embedded as a partial map from section index to section. -/
def Chunk : Type := Int → Option ChunkSection

/-- Modelled from the spec: Chunk::get_section is the lookup in the Chunk's
section mapping (missing index means `None`). -/
def Chunk.get_section (c : Chunk) (i : Int) : Option ChunkSection := c i

/-- MAX_LOADED_CHUNKS (src/chunk_loader.rs line 10). -/
def MAX_LOADED_CHUNKS : Nat := 32

/-- ChunkLoader (src/chunk_loader.rs lines 12-16). `loaded_chunks` models the
`HashMap` as an association list with unique keys, `recently_loaded_chunks` the
`VecDeque` with its front at the list head. `region_provider` abstracts the
backing region store: per the spec every requested coordinate is assumed to
exist in valid input (a missing region or chunk is a fatal `expect`). -/
structure ChunkLoader where
  loaded_chunks : List ((Int × Int) × Chunk)
  recently_loaded_chunks : List (Int × Int)
  region_provider : (Int × Int) → Chunk

/-- ChunkLoader::load_chunk (src/chunk_loader.rs lines 27-36): if the coordinate
is already in the recency queue, move it to the back; otherwise do nothing. -/
def ChunkLoader.load_chunk (s : ChunkLoader) (coordinate : Int × Int) : ChunkLoader :=
  if coordinate ∈ s.recently_loaded_chunks then
    { s with recently_loaded_chunks :=
        s.recently_loaded_chunks.erase coordinate ++ [coordinate] }
  else s

/-- HashMap lookup on the association-list model of `loaded_chunks`. -/
def lookup_loaded (m : List ((Int × Int) × Chunk)) (c : Int × Int) : Option Chunk :=
  (m.find? (fun e => e.1 = c)).map (fun e => e.2)

/-- HashMap::remove on the association-list model of `loaded_chunks`. -/
def remove_loaded (m : List ((Int × Int) × Chunk)) (c : Int × Int) :
    List ((Int × Int) × Chunk) :=
  m.filter (fun e => e.1 ≠ c)

/-- ChunkLoader::unload_chunks (src/chunk_loader.rs lines 38-46): when the
recency queue holds at least MAX_LOADED_CHUNKS entries, pop
`len - MAX_LOADED_CHUNKS` coordinates from its front and drop their chunks. -/
def ChunkLoader.unload_chunks (s : ChunkLoader) : ChunkLoader :=
  if MAX_LOADED_CHUNKS ≤ s.recently_loaded_chunks.length then
    let k := s.recently_loaded_chunks.length - MAX_LOADED_CHUNKS
    { s with
      loaded_chunks := (s.recently_loaded_chunks.take k).foldl remove_loaded s.loaded_chunks
      recently_loaded_chunks := s.recently_loaded_chunks.drop k }
  else s

/-- ChunkLoader::get_or_load (src/chunk_loader.rs lines 48-68): touch recency,
run eviction, then return the cached chunk or decode and insert the backing
store's chunk for this coordinate. -/
def ChunkLoader.get_or_load (s : ChunkLoader) (chunk_x chunk_z : Int) :
    ChunkLoader × Chunk :=
  let s1 := s.load_chunk (chunk_x, chunk_z)
  let s2 := s1.unload_chunks
  match lookup_loaded s2.loaded_chunks (chunk_x, chunk_z) with
  | some chunk => (s2, chunk)
  | none =>
    let chunk := s2.region_provider (chunk_x, chunk_z)
    ({ s2 with loaded_chunks := s2.loaded_chunks ++ [((chunk_x, chunk_z), chunk)] }, chunk)

/-- Chunk coordinate computed by get_blockstate_at (src/chunk_loader.rs line 71):
`x as i32 / CHUNK_SIZE as i32` — wrap to `i32`, then truncating division by 16. -/
def chunk_coord_of (v : Int) : Int := Int.tdiv (wrap_i32 v) 16

/-- Section index computed by get_blockstate_at (src/chunk_loader.rs line 74):
`y as i8 / CHUNK_SIZE as i8` — wrap to `i8`, then truncating division by 16. -/
def section_index_of (y : Int) : Int := Int.tdiv (wrap_i8 y) 16

/-- Local coordinate computed by get_blockstate_at (src/chunk_loader.rs lines
77-81): `v as usize % CHUNK_SIZE`. -/
def local_coord_of (v : Int) : Nat := u64_of_int v % 16

/-- ChunkLoader::get_blockstate_at (src/chunk_loader.rs lines 70-82). The outer
`Option` of the result models the assertion panic inside get_block_at; `some none`
is the function returning `None` (absent section, or id without palette entry). -/
def ChunkLoader.get_blockstate_at (s : ChunkLoader) (x : Int) (y : Int) (z : Int) :
    ChunkLoader × Option (Option String) :=
  let res := s.get_or_load (chunk_coord_of x) (chunk_coord_of z)
  match (res.2).get_section (section_index_of y) with
  | none => (res.1, some none)
  | some sec =>
    (res.1, sec.get_block_at (local_coord_of x) (local_coord_of y) (local_coord_of z))

/-- Vein (src/diamond_vein_analyzer.rs lines 7-13): member positions (duplicate
free, the source `HashSet`) and the stored location, whose source doc comment
says "Smallest coordinate in the vein. Priority: x y z". -/
structure Vein where
  blocks : List Pos
  location : Pos
deriving DecidableEq

/-- MAX_VEIN_SIZE (src/diamond_vein_analyzer.rs line 15). -/
def MAX_VEIN_SIZE : Nat := 16

/-- DIAMOND_ORES (src/diamond_vein_analyzer.rs line 17). -/
def DIAMOND_ORES : List String :=
  [("minecraft:diamond_ore"), ("minecraft:deepslate_diamond_ore")]

/-- min_coord (src/diamond_vein_analyzer.rs lines 226-232), exactly as written:
`if a.0 < b.0 || a.1 < b.1 || a.2 < b.2 { a } else { b }`. -/
def min_coord (a b : Pos) : Pos :=
  if a.1 < b.1 ∨ a.2.1 < b.2.1 ∨ a.2.2 < b.2.2 then a else b

/-- Neighbour offsets visited by explore_vein's triple loop (src/diamond_vein_analyzer.rs
lines 150-156): rx outer, ry middle, rz inner, each from -1 to 1. -/
def vein_offsets : List Pos :=
  ([-1, 0, 1] : List Int).flatMap (fun rx =>
    ([-1, 0, 1] : List Int).flatMap (fun ry =>
      ([-1, 0, 1] : List Int).map (fun rz => (rx, ry, rz))))

/-- Threading of the vein and the loader through the neighbour loop of
explore_vein: each offset's recursive call (given as `f`) is applied in turn, and
a rejection (`none`) short-circuits via the `?` operator of the source. -/
def explore_offsets_with (f : ChunkLoader → Vein → Int → Int → Int → ChunkLoader × Option Vein)
    (s : ChunkLoader) (vein : Vein) (offs : List Pos) (x y z : Int) :
    ChunkLoader × Option Vein :=
  match offs with
  | [] => (s, some vein)
  | r :: rest =>
    match f s vein (x + r.1) (y + r.2.1) (z + r.2.2) with
    | (s', none) => (s', none)
    | (s', some v) => explore_offsets_with f s' v rest x y z

/-- DiamondVeinAnalyzer::explore_vein (src/diamond_vein_analyzer.rs lines 136-165).
`found_veins` is the analyzer's de-duplication set (read only here), the
`ChunkLoader` is threaded because `get_blockstate_at` mutates the cache. In the
value branch, `some (some block)` is the source's `if let Some(block)`; the `_`
branch covers `some none` (dead end: no such blockstate) and the unreachable
assertion-panic value `none` (see the C10 theorem), both falling through to the
final emptiness test. -/
def explore_vein (found_veins : List Pos) :
    Nat → ChunkLoader → Vein → Int → Int → Int → ChunkLoader × Option Vein
  | 0, s, _, _, _, _ => (s, none)
  | fuel + 1, s, vein, x, y, z =>
    if MAX_VEIN_SIZE ≤ vein.blocks.length ∨ (x, y, z) ∈ found_veins then (s, none)
    else if (x, y, z) ∈ vein.blocks then (s, some vein)
    else
      let res := s.get_blockstate_at x y z
      let step :=
        match res.2 with
        | some (some block) =>
          if block ∈ DIAMOND_ORES then
            explore_offsets_with (explore_vein found_veins fuel) res.1
              { blocks := (x, y, z) :: vein.blocks
                location := min_coord vein.location (x, y, z) }
              vein_offsets x y z
          else (res.1, some vein)
        | _ => (res.1, some vein)
      match step with
      | (s2, none) => (s2, none)
      | (s2, some v) => (s2, if v.blocks.isEmpty then none else some v)

/-- Fuel passed to `explore_vein` at its top-level call sites; any value of at
least 64 is above the source recursion's depth bound (see the module comment). -/
def EXPLORE_FUEL : Nat := 64

/-- Aggregation state of DiamondVeinAnalyzer (src/diamond_vein_analyzer.rs lines
22-28) touched by analyze_chunk: the de-duplication set and the two histograms. -/
structure VeinStats where
  found_veins : List Pos
  vein_count_by_size : List (Nat × Nat)
  vein_count_by_height : List (Int × Nat)
deriving DecidableEq

/-- Counter update `*map.entry(key).or_insert(0) += 1` on the association-list
model of a HashMap. -/
def bump_count {α : Type} [DecidableEq α] (m : List (α × Nat)) (key : α) :
    List (α × Nat) :=
  if m.any (fun e => e.1 = key) then
    m.map (fun e => if e.1 = key then (e.1, e.2 + 1) else e)
  else m ++ [(key, 1)]

/-- Acceptance handling of analyze_chunk (src/diamond_vein_analyzer.rs lines
112-126): on acceptance (`some vein`) insert every member position into the
de-duplication set and bump the size histogram (size cast `as u8`) and the height
histogram (height of the stored location cast `as i16`); on rejection (`none`)
leave the state unchanged. -/
def apply_vein_result (stats : VeinStats) (vr : Option Vein) : VeinStats :=
  match vr with
  | some vein =>
    { found_veins := vein.blocks.foldl (fun fv p => fv.insert p) stats.found_veins
      vein_count_by_size := bump_count stats.vein_count_by_size (vein.blocks.length % 256)
      vein_count_by_height := bump_count stats.vein_count_by_height (wrap_i16 vein.location.2.1) }
  | none => stats

/-- Body of the block loop of DiamondVeinAnalyzer::analyze_chunk
(src/diamond_vein_analyzer.rs lines 99-134). For a block of a diamond-ore type:
run explore_vein seeded at its global position, fold the result into the
analyzer's state (`apply_vein_result`), and count the seed in the chunk's diamond
counter (a `u8`) regardless of acceptance. Any other block leaves the state
unchanged. The blocks are the sequence produced by iterating the chunk's sections
(the Chunk IntoIterator itself is not among the given sources; per the spec it
yields every section's blocks, each a `ChunkSectionBlock`). -/
def analyze_chunk_step (acc : ChunkLoader × VeinStats × Nat) (block : ChunkSectionBlock) :
    ChunkLoader × VeinStats × Nat :=
  if block.blockstate ∈ DIAMOND_ORES then
    let x := block.global_pos.1
    let y := block.global_pos.2.1
    let z := block.global_pos.2.2
    let er := explore_vein acc.2.1.found_veins EXPLORE_FUEL acc.1
      { blocks := [], location := (x, y, z) } x y z
    (er.1, apply_vein_result acc.2.1 er.2, (acc.2.2 + 1) % 256)
  else acc

/-- Loop of DiamondVeinAnalyzer::analyze_chunk over the chunk's blocks, starting
from the analyzer's state and diamond counter 0 (see `analyze_chunk_step`). -/
def analyze_chunk (s : ChunkLoader) (chunk_blocks : List ChunkSectionBlock)
    (stats : VeinStats) : ChunkLoader × VeinStats × Nat :=
  chunk_blocks.foldl analyze_chunk_step (s, stats, 0)

/-- DiamondVeinAnalyzer::clean_found_veins (src/diamond_vein_analyzer.rs lines
59-66), exactly as written: the filter retains the positions satisfying
`lx < x && lz < z`. -/
def clean_found_veins (found_veins : List Pos) (front : Int × Int) : List Pos :=
  found_veins.filter (fun l => l.1 < front.1 ∧ l.2.2 < front.2)

/-- Modelled from the spec (refinement reference for C3): the pruning the spec
describes removes exactly the locations with both coordinates strictly behind the
front and keeps all others. -/
def clean_found_veins_spec (found_veins : List Pos) (front : Int × Int) : List Pos :=
  found_veins.filter (fun l => ¬ (l.1 < front.1 ∧ l.2.2 < front.2))

/-- Modelled from the spec (refinement reference for C4): the lexicographic
(x, y, z) minimum of two positions. -/
def lex_min (a b : Pos) : Pos :=
  if a.1 < b.1 ∨ (a.1 = b.1 ∧ (a.2.1 < b.2.1 ∨ (a.2.1 = b.2.1 ∧ a.2.2 ≤ b.2.2))) then a
  else b

/-! Concrete test data used by the claim theorems. -/

/-- Fresh loader over a given backing region store. -/
def loader_init (provider : (Int × Int) → Chunk) : ChunkLoader :=
  { loaded_chunks := [], recently_loaded_chunks := [], region_provider := provider }

/-- Backing store all of whose chunks are fully empty. -/
def empty_provider : (Int × Int) → Chunk := fun _ => fun _ => none

/-- Loader state after sequentially loading the 33 distinct coordinates
(0,0), (1,0), ..., (32,0) — one more than MAX_LOADED_CHUNKS — into a fresh cache. -/
def c1_final : ChunkLoader :=
  (((List.range 33).map (fun i => ((i : Int), (0 : Int)))).foldl
    (fun s c => (s.get_or_load c.1 c.2).1) (loader_init empty_provider))

/-- Three-entry test palette: air, stone, diamond ore. `get_state` only reads
`elements`; `indices` is irrelevant to the modelled paths. -/
def palette_asd : Palette :=
  { indices := []
    elements := [("minecraft:air"), ("minecraft:stone"), ("minecraft:diamond_ore")] }

/-- Array offset of local coordinates (x, y, z), as in BlocksArray::get. -/
def idx_of (x y z : Nat) : Nat := y * 256 + z * 16 + x

/-- Section at index 0 of chunk (0,0) that is diamond ore exactly on the indices
selected by `diamond` and stone everywhere else. -/
def section_of (diamond : Nat → Bool) : ChunkSection :=
  { blocks := fun i => if diamond i then 2 else 1
    pos := (0, 0, 0)
    palette := palette_asd }

/-- Chunk holding only the given section, at section index 0. -/
def chunk_single (sec : ChunkSection) : Chunk :=
  fun i => if i = 0 then some sec else none

/-- Backing store with the given section in chunk (0,0) and everything else
fully empty. -/
def provider_single (sec : ChunkSection) : (Int × Int) → Chunk :=
  fun c => if c = (0, 0) then chunk_single sec else fun _ => none

/-- World of claim C4: diamond ore exactly at (5,5,5) and (4,6,5). -/
def c4_loader : ChunkLoader :=
  loader_init (provider_single (section_of (fun i => i == idx_of 5 5 5 || i == idx_of 4 6 5)))

/-- Membership test for the 16-voxel cluster of claim C2: the two rows
x ∈ [1,8] at (y,z) = (2,1) and x ∈ [1,8] at (y,z) = (2,2). -/
def c2_diamond16 : Nat → Bool :=
  fun i => (529 ≤ i && i ≤ 536) || (545 ≤ i && i ≤ 552)

/-- Membership test for the 17-voxel cluster of claim C2: the 16-voxel cluster
plus (1,2,3) (index 561). -/
def c2_diamond17 : Nat → Bool :=
  fun i => c2_diamond16 i || i == 561

/-- Membership test for the 15-voxel cluster of claim C2: rows x ∈ [1,8] at
(y,z) = (2,1) and x ∈ [1,7] at (y,z) = (2,2). -/
def c2_diamond15 : Nat → Bool :=
  fun i => (529 ≤ i && i ≤ 536) || (545 ≤ i && i ≤ 551)

/-- Loader over the 16-voxel cluster world. -/
def c2_loader16 : ChunkLoader := loader_init (provider_single (section_of c2_diamond16))

/-- Loader over the 17-voxel cluster world. -/
def c2_loader17 : ChunkLoader := loader_init (provider_single (section_of c2_diamond17))

/-- Loader over the 15-voxel cluster world. -/
def c2_loader15 : ChunkLoader := loader_init (provider_single (section_of c2_diamond15))

/-- A diamond-ore block of the chunk iteration at global position (x, y, z)
(chunk (0,0), section 0, so global equals local). -/
def mk_diamond_block (x y z : Int) : ChunkSectionBlock :=
  { chunk_pos := (x.toNat, y.toNat, z.toNat)
    global_pos := (x, y, z)
    blockstate := ("minecraft:diamond_ore") }

/-- Diamond blocks of the 16-voxel cluster in chunk-iteration (index) order. -/
def c2_blocks16 : List ChunkSectionBlock :=
  ((List.range 8).map (fun i => mk_diamond_block ((i : Int) + 1) 2 1)) ++
    ((List.range 8).map (fun i => mk_diamond_block ((i : Int) + 1) 2 2))

/-- Diamond blocks of the 17-voxel cluster in chunk-iteration (index) order. -/
def c2_blocks17 : List ChunkSectionBlock :=
  c2_blocks16 ++ [mk_diamond_block 1 2 3]

/-- Diamond blocks of the 15-voxel cluster in chunk-iteration (index) order. -/
def c2_blocks15 : List ChunkSectionBlock :=
  ((List.range 8).map (fun i => mk_diamond_block ((i : Int) + 1) 2 1)) ++
    ((List.range 7).map (fun i => mk_diamond_block ((i : Int) + 1) 2 2))

/-- Section for claims C6: every block id is 5, but the palette holds a single
entry, so no id of the section has a palette entry. -/
def bad_section : ChunkSection :=
  { blocks := fun _ => 5
    pos := (0, 0, 0)
    palette := { indices := [], elements := [("minecraft:air")] } }

/-- World of claim C9: chunk (0,0) holds one all-stone section at index 0 and
nothing else. -/
def c9_loader : ChunkLoader :=
  loader_init (provider_single (section_of (fun _ => false)))

/-- World with a single diamond voxel at (5,5,5), used by witness theorems. -/
def single_diamond_loader : ChunkLoader :=
  loader_init (provider_single (section_of (fun i => i == idx_of 5 5 5)))

set_option maxRecDepth 1000000
set_option maxHeartbeats 4000000

/-! Helper lemmas. -/

theorem clog2_eq_succ {k n : Nat} (h1 : 2 ^ k < n) (h2 : n ≤ 2 ^ (k + 1)) :
    Nat.clog 2 n = k + 1 :=
  le_antisymm ((Nat.le_pow_iff_clog_le one_lt_two).1 h2)
    ((Nat.pow_lt_iff_lt_clog one_lt_two).1 h1)

theorem traverse_opt_eq_none {α β : Type} (f : α → Option β) :
    ∀ (l : List α) (a : α), a ∈ l → f a = none → traverse_opt f l = none := by
  intro l
  induction l with
  | nil => intro a ha _; simp at ha
  | cons b t ih =>
    intro a ha hfa
    rcases List.mem_cons.1 ha with h | h
    · subst h
      unfold traverse_opt
      rw [hfa]
    · unfold traverse_opt
      cases hb : f b with
      | none => rfl
      | some v => rw [ih a h hfa]

/-! Claim theorems. -/

/-- C1. The claim states the LRU invariant for the ChunkLoader cache: each cached
coordinate would sit in the recency queue exactly once and, after loading
CAPACITY + k distinct coordinates, exactly CAPACITY = 32 chunks would remain.
The code violates it: get_or_load never pushes a newly loaded coordinate onto
`recently_loaded_chunks` (load_chunk only re-queues coordinates already present),
so after loading the 33 distinct coordinates of `c1_final` the queue is still
empty and all 33 chunks are cached — nothing is ever evicted. -/
theorem C1_cache_never_evicts :
    c1_final.loaded_chunks.length = 33 ∧ c1_final.recently_loaded_chunks = [] := by
  decide

/-- C3. The claim states that the pruning step removes exactly the vein locations
with both x and z strictly behind the new scan front and keeps all others. The
code's filter keeps exactly those and removes all others (the predicate lacks a
negation): on the set {(5,0,5), (20,0,20)} with front (10,10), clean_found_veins
keeps (5,0,5) — which the claim says is removed — and drops (20,0,20) — which the
claim says is kept; the spec-side pruning `clean_found_veins_spec` does the
opposite. -/
theorem C3_clean_keeps_stale :
    clean_found_veins [(5, 0, 5), (20, 0, 20)] (10, 10) = [(5, 0, 5)] ∧
    clean_found_veins_spec [(5, 0, 5), (20, 0, 20)] (10, 10) = [(20, 0, 20)] ∧
    (5, 0, 5) ∈ clean_found_veins [(5, 0, 5), (20, 0, 20)] (10, 10) := by
  decide

/-- C4. The claim states that a vein's stored location is the lexicographic
(x, y, z) minimum of its members, equivalently that min_coord returns the
lexicographically smaller argument. The code's min_coord tests
`a.0 < b.0 || a.1 < b.1 || a.2 < b.2`, which is not lexicographic: on
a = (0,0,0), b = (-1,1,0) it returns (0,0,0) although the lexicographic minimum
is (-1,1,0); and exploring the two-voxel world `c4_loader` (diamonds at (5,5,5)
and (4,6,5), seeded at (5,5,5)) accepts a vein whose stored location (5,5,5)
differs from the lexicographic minimum (4,6,5) of its members. -/
theorem C4_min_coord_not_lexicographic :
    min_coord (0, 0, 0) (-1, 1, 0) = (0, 0, 0) ∧
    lex_min (0, 0, 0) (-1, 1, 0) = (-1, 1, 0) ∧
    (explore_vein [] EXPLORE_FUEL c4_loader { blocks := [], location := (5, 5, 5) } 5 5 5).2 =
      some { blocks := [(4, 6, 5), (5, 5, 5)], location := (5, 5, 5) } ∧
    lex_min (4, 6, 5) (5, 5, 5) = (4, 6, 5) := by
  decide

/-- C5. The claim states that a palette whose first declared entry is not air gets
air inserted at index 0, with all declared entries shifted up by one, so that id 0
always resolves to air. In Palette::from_nbt the insertion branch pushes the first
declared entry (not air) onto `elements`, so from the backing list ["minecraft:stone"]
the resulting elements are [stone, stone] and looking up id 0 yields stone, not
air — contradicting the function's own comment ("id 0 = minecraft:air even if it's
not specified"). The declared entry does sit at its declared index plus one, and a
backing list that already starts with air is kept unshifted. -/
theorem C5_air_not_at_index_zero :
    (Palette.from_nbt [("minecraft:stone")]).elements =
      [("minecraft:stone"), ("minecraft:stone")] ∧
    (Palette.from_nbt [("minecraft:stone")]).get_state 0 = some ("minecraft:stone") ∧
    (Palette.from_nbt [("minecraft:air"), ("minecraft:stone")]).elements =
      [("minecraft:air"), ("minecraft:stone")] := by
  decide

/-- C6 counterexample. The claim states that both the per-voxel lookup path and
the section iteration path abort when an id has no palette entry. On
`bad_section` (every id is 5, palette has 1 entry) get_block_at returns the value
`None` (modelled `some none`) instead of aborting (`none` would be the assertion
panic): the per-voxel path maps an out-of-palette id to a benign result. -/
theorem C6_get_block_at_benign :
    bad_section.get_block_at 0 0 0 = some none ∧
    bad_section.palette.get_state (bad_section.blocks 0) = none := by
  decide

/-- C6 amended. When a decoded id has no palette entry, the section iteration
path aborts (the `expect` panic, modelled by `into_iter = none`), but the
per-voxel lookup path get_block_at does not abort: it returns the benign value
`None` (modelled `some none`). -/
theorem C6_out_of_palette_paths :
    (∀ (s : ChunkSection) (x y z : Nat), x < 16 → y < 16 → z < 16 →
      s.palette.get_state (s.blocks (y * 256 + z * 16 + x)) = none →
      s.get_block_at x y z = some none) ∧
    (∀ (s : ChunkSection) (i : Nat), i < 4096 →
      s.palette.get_state (s.blocks i) = none → s.into_iter = none) := by
  constructor
  · intro s x y z hx hy hz h
    unfold ChunkSection.get_block_at
    rw [if_pos ⟨hx, hy, hz⟩, h]
  · intro s i hi h
    unfold ChunkSection.into_iter
    apply traverse_opt_eq_none _ _ i (List.mem_range.2 hi)
    simp only [h]

/-- C6 witness: the amended theorem applied to `bad_section` at voxel (1,0,0) and
at array index 0. -/
theorem C6_out_of_palette_paths_witness :
    bad_section.get_block_at 1 0 0 = some none ∧ bad_section.into_iter = none :=
  ⟨C6_out_of_palette_paths.1 bad_section 1 0 0 (by norm_num) (by norm_num) (by norm_num) rfl,
   C6_out_of_palette_paths.2 bad_section 0 (by norm_num) rfl⟩

/-- C7. The computed element bit width is max(4, ceil(log2(palette size))): it is
4 for sizes 1 through 16, 5 for 17, 8 for 256, 9 for 257, always at least 4, and
for every positive size equals the real ceiling of the base-2 logarithm. -/
theorem C7_bit_width :
    (∀ i : Fin 16, get_elem_bit_size (i.1 + 1) = 4) ∧
    get_elem_bit_size 17 = 5 ∧ get_elem_bit_size 256 = 8 ∧ get_elem_bit_size 257 = 9 ∧
    (∀ n : Nat, 4 ≤ get_elem_bit_size n) ∧
    (∀ n : Nat, (get_elem_bit_size (n + 1) : Int) = max 4 ⌈Real.logb 2 ((n : Real) + 1)⌉) := by
  refine ⟨?_, ?_, ?_, ?_, fun n => le_max_left _ _, ?_⟩
  · intro i
    have h1 : i.1 + 1 ≤ 2 ^ 4 := by have := i.2; omega
    have h2 : Nat.clog 2 (i.1 + 1) ≤ 4 := (Nat.le_pow_iff_clog_le one_lt_two).1 h1
    unfold get_elem_bit_size
    omega
  · unfold get_elem_bit_size
    rw [@clog2_eq_succ 4 17 (by norm_num) (by norm_num)]
    omega
  · unfold get_elem_bit_size
    rw [@clog2_eq_succ 7 256 (by norm_num) (by norm_num)]
    omega
  · unfold get_elem_bit_size
    rw [@clog2_eq_succ 8 257 (by norm_num) (by norm_num)]
    omega
  · intro n
    have h1 : ((n : Real) + 1) = (((n + 1 : Nat) : Real)) := by push_cast; ring
    have h2 : (2 : Real) = ((2 : Nat) : Real) := by norm_num
    rw [h1, h2, Real.ceil_logb_natCast (by positivity), Int.clog_natCast]
    unfold get_elem_bit_size
    rw [Nat.cast_max]
    norm_num

/-- C9 counterexample. The claim states that for every world coordinate the point
query loads the owning chunk and returns None whenever the owning section is
absent. On the world `c9_loader` (only chunk (0,0) with an all-stone section at
index 0), the coordinate (8,-1,8) is owned by section floor(-1/16) = -1 of chunk
(floor(8/16), floor(8/16)) = (0,0), and that section is absent — yet the query
returns the stone blockstate (truncating division and the wrapping `as usize`
remainders redirect the probe to section 0, local y 15). The chunk-coordinate
computation likewise disagrees with floor division at x = -1. -/
theorem C9_negative_coordinate_mismatch :
    (c9_loader.get_blockstate_at 8 (-1) 8).2 = some (some ("minecraft:stone")) ∧
    ((c9_loader.get_or_load (Int.fdiv 8 16) (Int.fdiv 8 16)).2).get_section
      (Int.fdiv (-1) 16) = none ∧
    chunk_coord_of (-1) = 0 ∧ Int.fdiv (-1) 16 = -1 :=
  ⟨by decide, rfl, by decide, by decide⟩

/-- C9 amended. For nonnegative in-range coordinates (0 ≤ x < 2^31 and
0 ≤ y < 128) the computed chunk coordinate and section index agree with the
owning (floor-division) ones; whenever the section the code computes is absent
from the loaded chunk, get_blockstate_at returns None rather than failing; and a
section whose source data has no packed `BlockStates` array is omitted at decode
time (ChunkSection::from_nbt yields no section), not treated as all-empty. -/
theorem C9_point_query_amended :
    (∀ x : Int, 0 ≤ x → x < 2 ^ 31 → chunk_coord_of x = Int.fdiv x 16) ∧
    (∀ y : Int, 0 ≤ y → y < 128 → section_index_of y = Int.fdiv y 16) ∧
    (∀ (s : ChunkLoader) (x y z : Int),
      ((s.get_or_load (chunk_coord_of x) (chunk_coord_of z)).2).get_section
        (section_index_of y) = none →
      (s.get_blockstate_at x y z).2 = some none) ∧
    (∀ (nbt : SectionNbt) (cx cz : Int), nbt.block_states = none →
      ChunkSection.from_nbt nbt cx cz = none) := by
  refine ⟨?_, ?_, ?_, ?_⟩
  · intro x h0 h31
    have hw : wrap_i32 x = x := by unfold wrap_i32; omega
    unfold chunk_coord_of
    rw [hw, Int.tdiv_eq_ediv h0 (by norm_num), Int.fdiv_eq_ediv _ (by norm_num)]
  · intro y h0 h128
    have hw : wrap_i8 y = y := by unfold wrap_i8; omega
    unfold section_index_of
    rw [hw, Int.tdiv_eq_ediv h0 (by norm_num), Int.fdiv_eq_ediv _ (by norm_num)]
  · intro s x y z h
    unfold ChunkLoader.get_blockstate_at
    simp only [h]
  · intro nbt cx cz h
    unfold ChunkSection.from_nbt
    simp only [h]

/-- C9 witness: the amended theorem applied at x = 20, y = 33, at the world
`c9_loader` queried at (8,40,8) (whose computed section index 2 is absent), and
at a section compound without a `BlockStates` entry. -/
theorem C9_point_query_amended_witness :
    chunk_coord_of 20 = Int.fdiv 20 16 ∧
    section_index_of 33 = Int.fdiv 33 16 ∧
    (c9_loader.get_blockstate_at 8 40 8).2 = some none ∧
    ChunkSection.from_nbt
      { palette := some [("minecraft:air")], block_states := none, y := some 0 } 0 0 = none :=
  ⟨C9_point_query_amended.1 20 (by norm_num) (by norm_num),
   C9_point_query_amended.2.1 33 (by norm_num) (by norm_num),
   C9_point_query_amended.2.2.1 c9_loader 8 40 8 rfl,
   C9_point_query_amended.2.2.2 _ 0 0 rfl⟩

/-- C10. Every local coordinate get_blockstate_at passes to get_block_at is a
`usize` remainder modulo 16 and hence strictly below 16 — also for negative world
coordinates — so get_block_at's three bounds assertions can never fail when
called from get_blockstate_at: the query never returns the assertion-panic value
`none`. -/
theorem C10_assertions_never_fail :
    (∀ v : Int, local_coord_of v < 16) ∧
    (∀ (s : ChunkLoader) (x y z : Int), (s.get_blockstate_at x y z).2 ≠ none) := by
  have h16 : ∀ v : Int, local_coord_of v < 16 := fun v => Nat.mod_lt _ (by norm_num)
  refine ⟨h16, ?_⟩
  intro s x y z
  unfold ChunkLoader.get_blockstate_at
  cases h : ((s.get_or_load (chunk_coord_of x) (chunk_coord_of z)).2).get_section
      (section_index_of y) with
  | none => simp [h]
  | some sec =>
    simp only [h]
    unfold ChunkSection.get_block_at
    rw [if_pos ⟨h16 x, h16 y, h16 z⟩]
    simp

/-- C10 witness: the theorem applied at the negative coordinate (-3, -20, 47) of
the world `c9_loader`. -/
theorem C10_assertions_never_fail_witness :
    local_coord_of (-3) < 16 ∧ (c9_loader.get_blockstate_at (-3) (-20) 47).2 ≠ none :=
  ⟨C10_assertions_never_fail.1 (-3), C10_assertions_never_fail.2 c9_loader (-3) (-20) 47⟩

/-- Closed form of the bit-reader loop: starting at bit position `pos` with
enough fuel, the loop emits the `(64 - pos) / width` consecutive `width`-bit
groups of the word, least significant first. -/
theorem read_loop_closed (width bits : Nat) (hw : 0 < width) :
    ∀ (fuel pos : Nat), 64 - pos ≤ fuel * width →
      read_loop width bits pos fuel =
        (List.range ((64 - pos) / width)).map
          (fun i => bits / 2 ^ (pos + i * width) % 2 ^ width) := by
  intro fuel
  induction fuel with
  | zero =>
    intro pos h
    have h0 : 64 - pos = 0 := by simpa using h
    unfold read_loop
    rw [h0]
    simp
  | succ fuel ih =>
    intro pos h
    unfold read_loop
    by_cases hc : pos + width ≤ 64
    · rw [if_pos ⟨hw, hc⟩]
      have hdiv : (64 - pos) / width = (64 - (pos + width)) / width + 1 := by
        rw [Nat.div_eq]
        rw [if_pos ⟨hw, by omega⟩]
        congr 2
        omega
      rw [hdiv, List.range_succ_eq_map]
      rw [List.map_cons, List.map_map]
      have hih : read_loop width bits (pos + width) fuel =
          (List.range ((64 - (pos + width)) / width)).map
            (fun i => bits / 2 ^ (pos + width + i * width) % 2 ^ width) := by
        apply ih
        have hsm : (fuel + 1) * width = fuel * width + width := by
          rw [Nat.succ_mul]
        rw [hsm] at h
        omega
      rw [hih]
      refine congrArg₂ List.cons (by simp) ?_
      apply List.map_congr_left
      intro a _
      have : pos + Nat.succ a * width = pos + width + a * width := by
        rw [Nat.succ_mul]; ring
      simp only [Function.comp]
      rw [this]
    · rw [if_neg (fun hcon => hc hcon.2)]
      have h0 : (64 - pos) / width = 0 := Nat.div_eq_of_lt (by omega)
      rw [h0]
      simp

/-- C8. Decoding a 64-bit packed word with width w extracts exactly
floor(64 / w) values of w bits each starting from the least significant bit
(first conjunct: the closed form of parse_blockstate_val); the remaining high
bits are discarded, so no value spans two words (second conjunct: the output only
depends on the word's low floor(64/w)·w bits); and across a whole section the
blocks array is the first 16·16·16 decoded values, zero padded, so decoding stops
once 4096 values have been produced or the words are exhausted (third conjunct). -/
theorem C8_codec_decode :
    (∀ (width : Nat) (val : Int), 0 < width →
      parse_blockstate_val width val =
        (List.range (64 / width)).map
          (fun i => u64_of_int val / 2 ^ (i * width) % 2 ^ width)) ∧
    (∀ (width : Nat) (val val' : Int), 0 < width →
      u64_of_int val % 2 ^ (64 / width * width) = u64_of_int val' % 2 ^ (64 / width * width) →
      parse_blockstate_val width val = parse_blockstate_val width val') ∧
    (∀ (words : List Int) (pal : Palette),
      get_blocks_in_chunk words pal =
        (get_block_ids_in_chunk words pal ++ List.replicate 4096 0).take 4096 ∧
      (get_blocks_in_chunk words pal).length = 4096) := by
  have main : ∀ (width : Nat) (val : Int), 0 < width →
      parse_blockstate_val width val =
        (List.range (64 / width)).map
          (fun i => u64_of_int val / 2 ^ (i * width) % 2 ^ width) := by
    intro width val hw
    unfold parse_blockstate_val
    have h64 : 64 - 0 ≤ 64 * width := by
      calc 64 - 0 = 64 * 1 := by omega
      _ ≤ 64 * width := Nat.mul_le_mul_left 64 hw
    rw [read_loop_closed width (u64_of_int val) hw 64 0 h64]
    simp
  refine ⟨main, ?_, ?_⟩
  · intro width val val' hw h
    rw [main width val hw, main width val' hw]
    apply List.map_congr_left
    intro i hi
    have hi2 : i + 1 ≤ 64 / width := List.mem_range.1 hi
    have hdvd : (2 : Nat) ^ ((i + 1) * width) ∣ 2 ^ (64 / width * width) :=
      pow_dvd_pow 2 (Nat.mul_le_mul_right width hi2)
    have key : u64_of_int val % 2 ^ ((i + 1) * width) =
        u64_of_int val' % 2 ^ ((i + 1) * width) := by
      rw [← Nat.mod_mod_of_dvd (u64_of_int val) hdvd,
        ← Nat.mod_mod_of_dvd (u64_of_int val') hdvd, h]
    have hsplit : ∀ m : Nat, m / 2 ^ (i * width) % 2 ^ width =
        m % 2 ^ ((i + 1) * width) / 2 ^ (i * width) := by
      intro m
      rw [← Nat.mod_mul_right_div_self m (2 ^ (i * width)) (2 ^ width), ← pow_add]
      congr 2
      ring
    rw [hsplit, hsplit, key]
  · intro words pal
    constructor
    · simp only [get_blocks_in_chunk]
      rw [List.take_append_eq_append_take, List.take_replicate]
      have hmin : (4096 - (get_block_ids_in_chunk words pal).length) ⊓ 4096 =
          4096 - (get_block_ids_in_chunk words pal).length := by omega
      rw [hmin]
    · simp only [get_blocks_in_chunk]
      rw [List.length_append, List.length_take, List.length_replicate]
      omega

/-- C8 witness: the closed form applied at width 4 and word 3, together with the
resulting concrete value list, and the section-level result on an empty word
list. -/
theorem C8_codec_decode_witness :
    parse_blockstate_val 4 3 =
      (List.range (64 / 4)).map (fun i => u64_of_int 3 / 2 ^ (i * 4) % 2 ^ 4) ∧
    parse_blockstate_val 4 3 = [3, 0, 0, 0, 0, 0, 0, 0, 0, 0, 0, 0, 0, 0, 0, 0] ∧
    get_blocks_in_chunk [] palette_asd =
      (get_block_ids_in_chunk [] palette_asd ++ List.replicate 4096 0).take 4096 :=
  ⟨C8_codec_decode.1 4 3 (by norm_num), by decide,
   (C8_codec_decode.2.2 [] palette_asd).1⟩

/-- Size bound threaded through the neighbour loop: if every recursive call that
accepts returns a vein of at most MAX_VEIN_SIZE - 1 members, so does a nonempty
offset loop (its value is the last recursive call's accepted vein). -/
theorem explore_offsets_with_bound
    (f : ChunkLoader → Vein → Int → Int → Int → ChunkLoader × Option Vein)
    (Hf : ∀ (s : ChunkLoader) (v : Vein) (x y z : Int),
      ((f s v x y z).2).elim True (fun v' => v'.blocks.length ≤ MAX_VEIN_SIZE - 1)) :
    ∀ (offs : List Pos) (s : ChunkLoader) (v : Vein) (x y z : Int), offs ≠ [] →
      ((explore_offsets_with f s v offs x y z).2).elim True
        (fun v' => v'.blocks.length ≤ MAX_VEIN_SIZE - 1) := by
  intro offs
  induction offs with
  | nil => intro s v x y z h; exact absurd rfl h
  | cons r rest ih =>
    intro s v x y z _
    unfold explore_offsets_with
    have hf := Hf s v (x + r.1) (y + r.2.1) (z + r.2.2)
    rcases hfe : f s v (x + r.1) (y + r.2.1) (z + r.2.2) with ⟨s', vo⟩
    rw [hfe] at hf
    cases vo with
    | none => simp
    | some v1 =>
      simp only [Option.elim] at hf
      cases rest with
      | nil => simpa [explore_offsets_with] using hf
      | cons r2 rest2 => exact ih s' v1 x y z (by simp)

/-- No accepted vein ever reaches MAX_VEIN_SIZE members: once the 16th member is
inserted, the very next recursive call (the first neighbour offset) hits the size
test and rejects the whole exploration, so any `some` result of explore_vein has
at most 15 members. -/
theorem explore_vein_size_cap :
    ∀ (fuel : Nat) (found : List Pos) (s : ChunkLoader) (vein : Vein) (x y z : Int),
      ((explore_vein found fuel s vein x y z).2).elim True
        (fun v => v.blocks.length ≤ MAX_VEIN_SIZE - 1) := by
  intro fuel
  induction fuel with
  | zero => intro found s vein x y z; simp [explore_vein]
  | succ fuel ih =>
    intro found s vein x y z
    simp only [explore_vein]
    by_cases h1 : MAX_VEIN_SIZE ≤ vein.blocks.length ∨ (x, y, z) ∈ found
    · simp [h1]
    · rw [if_neg h1]
      have hlen : vein.blocks.length ≤ MAX_VEIN_SIZE - 1 := by
        unfold MAX_VEIN_SIZE at h1 ⊢
        omega
      by_cases h2 : (x, y, z) ∈ vein.blocks
      · simpa [h2] using hlen
      · rw [if_neg h2]
        generalize (s.get_blockstate_at x y z).1 = s1
        generalize (s.get_blockstate_at x y z).2 = r
        have tail : ∀ s' : ChunkLoader,
            ((s', if vein.blocks.isEmpty then none else some vein).2).elim True
              (fun v => v.blocks.length ≤ MAX_VEIN_SIZE - 1) := by
          intro s'
          by_cases hve : vein.blocks.isEmpty
          · simp [hve]
          · simpa [hve] using hlen
        cases r with
        | none => exact tail s1
        | some ob =>
          cases ob with
          | none => exact tail s1
          | some block =>
            by_cases hd : block ∈ DIAMOND_ORES
            · simp only [hd, if_pos]
              have hb := explore_offsets_with_bound (explore_vein found fuel)
                (fun s' v' a b c => ih found s' v' a b c) vein_offsets s1
                { blocks := (x, y, z) :: vein.blocks
                  location := min_coord vein.location (x, y, z) }
                x y z (by decide)
              rcases hres : explore_offsets_with (explore_vein found fuel) s1
                  { blocks := (x, y, z) :: vein.blocks
                    location := min_coord vein.location (x, y, z) }
                  vein_offsets x y z with ⟨s2, vo2⟩
              rw [hres] at hb
              cases vo2 with
              | none => simp
              | some v2 =>
                simp only [Option.elim] at hb
                by_cases he : v2.blocks.isEmpty
                · simp [he]
                · simpa [he] using hb
            · simp only [hd, if_neg]
              exact tail s1

/-- Keys of a bumped counter map: the bumped key or a key already present. -/
theorem bump_count_key_mem {α : Type} [DecidableEq α] (m : List (α × Nat)) (key : α) :
    ∀ e ∈ bump_count m key, e.1 = key ∨ ∃ e0 ∈ m, e0.1 = e.1 := by
  intro e he
  unfold bump_count at he
  by_cases h : m.any (fun e => e.1 = key)
  · rw [if_pos h] at he
    rcases List.mem_map.1 he with ⟨e0, he0, heq⟩
    by_cases hk : e0.1 = key
    · rw [if_pos hk] at heq
      left
      rw [← heq, hk]
    · rw [if_neg hk] at heq
      right
      exact ⟨e0, he0, by rw [heq]⟩
  · rw [if_neg h] at he
    rcases List.mem_append.1 he with h1 | h1
    · right
      exact ⟨e, h1, rfl⟩
    · left
      simp at h1
      rw [h1]

/-- Size-histogram keys never exceed MAX_VEIN_SIZE - 1: starting from a state
whose size keys are below the bound, any run of the analyze_chunk loop preserves
the bound, because every accepted vein has at most 15 members (the size cap) and
its `as u8` cast is then the identity. -/
theorem analyze_sizes_bounded :
    ∀ (blocks : List ChunkSectionBlock) (acc : ChunkLoader × VeinStats × Nat),
      (∀ e ∈ acc.2.1.vein_count_by_size, e.1 ≤ MAX_VEIN_SIZE - 1) →
      ∀ e ∈ (blocks.foldl analyze_chunk_step acc).2.1.vein_count_by_size,
        e.1 ≤ MAX_VEIN_SIZE - 1 := by
  intro blocks
  induction blocks with
  | nil => intro acc h; simpa using h
  | cons b rest ih =>
    intro acc h
    rw [List.foldl_cons]
    apply ih
    intro e he
    unfold analyze_chunk_step at he
    by_cases hd : b.blockstate ∈ DIAMOND_ORES
    · rw [if_pos hd] at he
      simp only [] at he
      revert he
      generalize hgen : explore_vein acc.2.1.found_veins EXPLORE_FUEL acc.1
        { blocks := [], location := (b.global_pos.1, b.global_pos.2.1, b.global_pos.2.2) }
        b.global_pos.1 b.global_pos.2.1 b.global_pos.2.2 = er
      intro he
      have hcap := explore_vein_size_cap EXPLORE_FUEL acc.2.1.found_veins acc.1
        { blocks := [], location := (b.global_pos.1, b.global_pos.2.1, b.global_pos.2.2) }
        b.global_pos.1 b.global_pos.2.1 b.global_pos.2.2
      rw [hgen] at hcap
      rcases er with ⟨s', vo⟩
      cases vo with
      | none => exact h e he
      | some vein =>
        simp only [Option.elim] at hcap
        simp only [apply_vein_result] at he
        rcases bump_count_key_mem _ _ e he with hk | ⟨e0, he0, hkey⟩
        · have hmod : vein.blocks.length % 256 = vein.blocks.length :=
            Nat.mod_eq_of_lt (by unfold MAX_VEIN_SIZE at hcap; omega)
          rw [hk, hmod]
          exact hcap
        · rw [← hkey]
          exact h e0 he0
    · rw [if_neg hd] at he
      exact h e he

/-- The diamond counter of the analyze_chunk loop counts exactly the diamond-ore
blocks, reduced modulo 256 (the `u8` wrap-around). -/
theorem analyze_counter_aux :
    ∀ (blocks : List ChunkSectionBlock) (acc : ChunkLoader × VeinStats × Nat),
      acc.2.2 < 256 →
      (blocks.foldl analyze_chunk_step acc).2.2 =
        (acc.2.2 + (blocks.filter (fun b => b.blockstate ∈ DIAMOND_ORES)).length) % 256 := by
  intro blocks
  induction blocks with
  | nil =>
    intro acc h
    simp [Nat.mod_eq_of_lt h]
  | cons b rest ih =>
    intro acc h
    rw [List.foldl_cons]
    by_cases hd : b.blockstate ∈ DIAMOND_ORES
    · have hstep : (analyze_chunk_step acc b).2.2 = (acc.2.2 + 1) % 256 := by
        unfold analyze_chunk_step
        rw [if_pos hd]
      have hlt : (analyze_chunk_step acc b).2.2 < 256 := by
        rw [hstep]
        exact Nat.mod_lt _ (by norm_num)
      rw [ih _ hlt, hstep, List.filter_cons_of_pos (by simpa using hd),
        List.length_cons, Nat.mod_add_mod]
      congr 1
      omega
    · have hstep : analyze_chunk_step acc b = acc := by
        unfold analyze_chunk_step
        rw [if_neg hd]
      rw [hstep, ih _ h, List.filter_cons_of_neg (by simpa using hd)]

/-- C2 counterexample. The claim states that a connected cluster of exactly 16
target voxels is accepted and recorded in the size histogram with size 16. On the
world `c2_loader16` (a connected 2 x 8 cluster of 16 diamond voxels), exploring
from the cluster's first seed rejects the whole vein — after the 16th insertion
the next recursive call hits the size test `len >= MAX_VEIN_SIZE` — and running
the analyze_chunk loop on that seed records nothing in either histogram while
still counting the seed. -/
theorem C2_sixteen_cluster_rejected :
    (explore_vein [] EXPLORE_FUEL c2_loader16 { blocks := [], location := (1, 2, 1) } 1 2 1).2 =
      none ∧
    (analyze_chunk c2_loader16 [mk_diamond_block 1 2 1] ⟨[], [], []⟩).2 =
      ({ found_veins := [], vein_count_by_size := [], vein_count_by_height := [] }, 1) := by
  constructor
  · decide
  · decide

/-- C2 amended. The flood fill accepts a vein only when it has at most
MAX_VEIN_SIZE - 1 = 15 members: a cluster of exactly 16 connected target voxels
is rejected in its entirety, exactly like one of 17, and contributes to no size
or height histogram entry — every size-histogram key produced by the analyze
loop is at most 15 — while the raw per-chunk counter still counts every seed
voxel encountered (modulo the u8 wrap-around). A cluster of 15 connected target
voxels is accepted and recorded with size 15 (and its members then de-duplicate
the remaining 14 seeds). -/
theorem C2_vein_size_cap :
    (∀ (found : List Pos) (fuel : Nat) (s : ChunkLoader) (vein : Vein) (x y z : Int),
      ((explore_vein found fuel s vein x y z).2).elim True
        (fun v => v.blocks.length ≤ MAX_VEIN_SIZE - 1)) ∧
    (∀ (s : ChunkLoader) (blocks : List ChunkSectionBlock) (stats : VeinStats),
      (analyze_chunk s blocks stats).2.2 =
        (blocks.filter (fun b => b.blockstate ∈ DIAMOND_ORES)).length % 256) ∧
    (∀ (s : ChunkLoader) (blocks : List ChunkSectionBlock),
      ∀ e ∈ (analyze_chunk s blocks ⟨[], [], []⟩).2.1.vein_count_by_size,
        e.1 ≤ MAX_VEIN_SIZE - 1) ∧
    (analyze_chunk c2_loader15 c2_blocks15 ⟨[], [], []⟩).2 =
      ({ found_veins := [(1, 2, 1), (1, 2, 2), (2, 2, 1), (2, 2, 2), (3, 2, 1), (3, 2, 2),
            (4, 2, 1), (4, 2, 2), (5, 2, 1), (5, 2, 2), (6, 2, 1), (6, 2, 2), (7, 2, 1),
            (7, 2, 2), (8, 2, 1)],
         vein_count_by_size := [(15, 1)],
         vein_count_by_height := [(2, 1)] }, 15) ∧
    (explore_vein [] EXPLORE_FUEL c2_loader17 { blocks := [], location := (1, 2, 1) } 1 2 1).2 =
      none ∧
    (c2_blocks17.filter (fun b => b.blockstate ∈ DIAMOND_ORES)).length = 17 := by
  refine ⟨fun found fuel s vein x y z => explore_vein_size_cap fuel found s vein x y z,
    fun s blocks stats => by
      simpa [analyze_chunk] using analyze_counter_aux blocks (s, stats, 0) (by norm_num),
    fun s blocks => analyze_sizes_bounded blocks (s, ⟨[], [], []⟩, 0) (by simp),
    by decide, by decide, by decide⟩

/-- C2 witness: the size-histogram bound of the amended theorem applied to the
single-diamond world, whose analyze run produces the histogram entry (1, 1). -/
theorem C2_vein_size_cap_witness :
    ((1, 1) : Nat × Nat).1 ≤ MAX_VEIN_SIZE - 1 :=
  C2_vein_size_cap.2.2.1 single_diamond_loader [mk_diamond_block 5 5 5] (1, 1) (by decide)
